import Mathlib

/-!
Verification of the diatonicPy pitch/interval engine (pitch.py, interval.py,
utils.py) against its specification.  Pitch names and interval names are
embedded structurally: a Python name string such as "Fds" is the pair
(Letter.F, Accidental.ds), and an interval name string such as "m7" is the
pair (Quality.m, 7).  Python ints are Int; Python `%` on a positive modulus
is Int.emod (the `%` of Int), and Python `//` is Int.fdiv.  Code that can
raise is modelled with Option, a raised exception being none.
-/

set_option maxHeartbeats 2000000

namespace Diatonic

/-- The seven natural letters (keys of the Python enums NATURAL_PITCHES and
NATURAL_SCALE in pitch.py). -/
inductive Letter
  | C | D | E | F | G | A | B
deriving DecidableEq, Fintype

/-- The five accidentals (Python enum ACCIDENTALS in pitch.py). -/
inductive Accidental
  | df | f | n | s | ds
deriving DecidableEq, Fintype

/-- Semitone value of each natural letter: the Python enum NATURAL_PITCHES. -/
def Letter.natVal : Letter → Int
  | .C => 0 | .D => 2 | .E => 4 | .F => 5 | .G => 7 | .A => 9 | .B => 11

/-- Diatonic position of each natural letter: the Python enum NATURAL_SCALE. -/
def Letter.scaleVal : Letter → Int
  | .C => 1 | .D => 2 | .E => 3 | .F => 4 | .G => 5 | .A => 6 | .B => 7

/-- ASCII code of the letter, as Python ord(self.__name) sees it. -/
def Letter.ordVal : Letter → Int
  | .A => 65 | .B => 66 | .C => 67 | .D => 68 | .E => 69 | .F => 70 | .G => 71

/-- The letter as a character (for the string form of a pitch name). -/
def Letter.char : Letter → Char
  | .A => 'A' | .B => 'B' | .C => 'C' | .D => 'D' | .E => 'E' | .F => 'F' | .G => 'G'

/-- Semitone offset of each accidental: the value of the ACCIDENTALS enum. -/
def Accidental.val : Accidental → Int
  | .df => -2 | .f => -1 | .n => 0 | .s => 1 | .ds => 2

/-- The accidental suffix as characters (the ACCIDENTALS member name). -/
def Accidental.chars : Accidental → List Char
  | .df => ['d', 'f'] | .f => ['f'] | .n => ['n'] | .s => ['s'] | .ds => ['d', 's']

/-- The instance state of a Python GenericPitch: the private fields
__name and __accidental. -/
structure PitchState where
  name : Letter
  accidental : Accidental
deriving DecidableEq

/-- GenericPitch.number: (NATURAL_PITCHES[name].value + ACCIDENTALS[acc].value) % 12. -/
def number (p : PitchState) : Int := (p.name.natVal + p.accidental.val) % 12

/-- GenericPitch.scaleDegree: NATURAL_SCALE[name].value. -/
def scaleDegree (p : PitchState) : Int := p.name.scaleVal

/-- utils.constrain_by_cycle: returns val unchanged when pha <= val <= pha+cyc
(note the inclusive upper bound), otherwise (val % cyc - pha % cyc) + pha. -/
def constrain_by_cycle (val pha cyc : Int) : Int :=
  if pha ≤ val ∧ val ≤ pha + cyc then val
  else (val % cyc - pha % cyc) + pha

/-- The PITCHES dict of pitch.py, in its exact insertion order, with the
string keys rendered structurally (so 'Cs' is (Letter.C, Accidental.s)).
The values are copied verbatim from the source; in particular the source
maps 'Bds' to 9. -/
def PITCHES : List ((Letter × Accidental) × Int) :=
  [((.C, .n), 0), ((.B, .s), 0), ((.D, .df), 0),
   ((.C, .s), 1), ((.D, .f), 1),
   ((.D, .n), 2), ((.C, .ds), 2), ((.E, .df), 2),
   ((.D, .s), 3), ((.E, .f), 3),
   ((.E, .n), 4), ((.D, .ds), 4), ((.F, .f), 4),
   ((.F, .n), 5), ((.E, .s), 5), ((.G, .df), 5),
   ((.F, .s), 6), ((.G, .f), 6),
   ((.G, .n), 7), ((.F, .ds), 7), ((.A, .df), 7),
   ((.G, .s), 8), ((.A, .f), 8),
   ((.A, .n), 9), ((.G, .ds), 9), ((.B, .ds), 9),
   ((.A, .s), 10), ((.B, .f), 10),
   ((.B, .n), 11), ((.A, .ds), 11), ((.C, .f), 11)]

/-- utils.search_dict_by_value applied to PITCHES: all keys with the given
value, in dict insertion order. -/
def search_pitches_by_value (v : Int) : List (Letter × Accidental) :=
  (PITCHES.filter (fun e => decide (e.2 = v))).map (fun e => e.1)

/-- GenericPitch.names_by_num.  The source first tries
names.apppend(NATURAL_PITCHES(num).name, ...) which always raises
AttributeError (apppend is a typo), so the bare except always routes to
utils.search_dict_by_value(PITCHES, num).  Raises ValueError outside 0..11. -/
def names_by_num (num : Int) : Option (List (Letter × Accidental)) :=
  if 0 ≤ num ∧ num < 12 then some (search_pitches_by_value num) else none

/-- NATURAL_PITCHES(v): the letter whose enum value is v, if any. -/
def naturalOfVal (v : Int) : Option Letter :=
  if v = 0 then some .C
  else if v = 2 then some .D
  else if v = 4 then some .E
  else if v = 5 then some .F
  else if v = 7 then some .G
  else if v = 9 then some .A
  else if v = 11 then some .B
  else none

/-- GenericPitch.name_by_num: the natural letter for num if it is a natural
value, otherwise the flat spelling of the next letter up; ValueError outside
0..11.  Returns the name as the character string the Python code formats. -/
def name_by_num (num : Int) : Option (List Char) :=
  if 0 ≤ num ∧ num < 12 then
    match naturalOfVal num with
    | some L => some [L.char]
    | none =>
      match naturalOfVal (num + 1) with
      | some L => some [L.char, 'f']
      | none => none
  else none

/-- First character of a pitch name resolved to a natural letter
(the check pitchName[0] in NATURAL_PITCHES.__members__). -/
def letterOfChar (c : Char) : Option Letter :=
  if c = 'C' then some .C
  else if c = 'D' then some .D
  else if c = 'E' then some .E
  else if c = 'F' then some .F
  else if c = 'G' then some .G
  else if c = 'A' then some .A
  else if c = 'B' then some .B
  else none

/-- Accidental suffix of a pitch name resolved to an ACCIDENTALS member
(the check pitchName[1:] in ACCIDENTALS.__members__). -/
def accOfChars : List Char → Option Accidental
  | ['d', 'f'] => some .df
  | ['f'] => some .f
  | ['n'] => some .n
  | ['s'] => some .s
  | ['d', 's'] => some .ds
  | _ => none

/-- GenericPitch.res_name on a name string: first character must be a natural
letter, the rest (if nonempty) must be an accidental member; otherwise
ValueError (none). -/
def res_name : List Char → Option (Letter × Accidental)
  | [] => none
  | c :: rest =>
    match letterOfChar c with
    | none => none
    | some L =>
      if rest = [] then some (L, .n)
      else (accOfChars rest).map (fun a => (L, a))

/-- The str branch of GenericPitch.set_pitch: res_name, then the fields are
set from the resolved tuple. -/
def pitch_set_str (s : List Char) : Option PitchState :=
  (res_name s).map (fun t => ⟨t.1, t.2⟩)

/-- The int branch of GenericPitch.set_pitch:
res_name(GenericPitch.name_by_num(pitch)). -/
def pitch_set_int (num : Int) : Option PitchState :=
  (name_by_num num).bind (fun s => pitch_set_str s)

/-- GenericPitch.__str__: the letter followed by the accidental member name,
the latter omitted when the accidental is natural. -/
def strPitch (p : PitchState) : List Char :=
  p.name.char :: (if p.accidental = .n then [] else p.accidental.chars)

/-- The dynamic type of the argument Python passes to GenericPitch.set_pitch:
a str, an int, or any other object. -/
inductive PitchArg
  | ofChars (s : List Char)
  | ofInt (num : Int)
  | other

/-- GenericPitch.set_pitch: isinstance(str) branch, isinstance(int) branch,
and no else branch at all: any other argument leaves the state untouched and
raises nothing. -/
def set_pitch (st : PitchState) (a : PitchArg) : Option PitchState :=
  match a with
  | .ofChars s => pitch_set_str s
  | .ofInt num => pitch_set_int num
  | .other => some st

/-- The class-level defaults of GenericPitch: __name = 'C', __accidental = 'n'.
These are the fields a fresh instance exposes before set assigns them. -/
def defaultPitch : PitchState := ⟨.C, .n⟩

/-- GenericPitch.__init__(pitch): set(pitch) run on an instance whose fields
are the class-level defaults. -/
def genericPitch_init (a : PitchArg) : Option PitchState := set_pitch defaultPitch a

/-- The five interval qualities (Python enum INTERVAL_QUALITIES in interval.py). -/
inductive Quality
  | d | m | P | M | A
deriving DecidableEq, Fintype

/-- Value of each quality in the INTERVAL_QUALITIES enum. -/
def Quality.val : Quality → Int
  | .d => -2 | .m => -1 | .P => 0 | .M => 1 | .A => 2

/-- INTERVAL_QUALITIES(-value): point reflection of a quality about perfect,
as AbstractInterval.invert computes it. -/
def qualityFlip : Quality → Quality
  | .d => .A | .m => .M | .P => .P | .M => .m | .A => .d

/-- The instance state of a Python AbstractInterval: the private fields
__quality and __degree. -/
structure IntervalState where
  quality : Quality
  degree : Int
deriving DecidableEq

/-- The INTERVALS dict of interval.py, in its exact insertion order, with the
string keys rendered structurally (so 'm7' is (Quality.m, 7)). -/
def INTERVALS : List ((Quality × Int) × Int) :=
  [((.P, 1), 0),
   ((.m, 2), 1), ((.A, 1), 1),
   ((.M, 2), 2), ((.d, 3), 2),
   ((.m, 3), 3), ((.A, 2), 3),
   ((.M, 3), 4), ((.d, 4), 4),
   ((.P, 4), 5), ((.A, 3), 5),
   ((.A, 4), 6), ((.d, 5), 6),
   ((.P, 5), 7), ((.d, 6), 7),
   ((.m, 6), 8), ((.A, 5), 8),
   ((.M, 6), 9), ((.d, 7), 9),
   ((.m, 7), 10), ((.A, 6), 10),
   ((.M, 7), 11),
   ((.P, 8), 12)]

/-- utils.search_dict_by_value applied to INTERVALS: all keys with the given
value, in dict insertion order. -/
def search_intervals_by_value (v : Int) : List (Quality × Int) :=
  (INTERVALS.filter (fun e => decide (e.2 = v))).map (fun e => e.1)

/-- Python dict lookup INTERVALS[key]; KeyError is none. -/
def lookupIntervalTable (k : Quality × Int) : Option Int :=
  (INTERVALS.find? (fun e => decide (e.1 = k))).map (fun e => e.2)

/-- AbstractInterval.octave: (degree - 1) // 7 (Python floor division). -/
def IntervalState.octave (i : IntervalState) : Int := (i.degree - 1).fdiv 7

/-- The degree component of AbstractInterval.singleName:
utils.constrain_by_cycle(degree, 1, 7).  Because of the inclusive upper
bound this keeps every degree from 1 to 8 unchanged (8 included), and maps
larger degrees to degree % 7 (which is 0 for multiples of 7). -/
def IntervalState.singleDegreeNum (i : IntervalState) : Int :=
  constrain_by_cycle i.degree 1 7

/-- AbstractInterval.singleName: the quality together with the constrained
degree (the Python code formats them into a string such as "P5"). -/
def IntervalState.singleName (i : IntervalState) : Quality × Int :=
  (i.quality, i.singleDegreeNum)

/-- AbstractInterval.singleSize: INTERVALS[self.singleName], KeyError as none. -/
def IntervalState.singleSize (i : IntervalState) : Option Int :=
  lookupIntervalTable i.singleName

/-- AbstractInterval.singleDegree: degree % 7 (0 for degree 7 itself). -/
def IntervalState.singleDegree (i : IntervalState) : Int := i.degree % 7

/-- AbstractInterval.size: INTERVALS[self.singleName] + self.octave * 12. -/
def IntervalState.size (i : IntervalState) : Option Int :=
  i.singleSize.map (fun s => s + i.octave * 12)

/-- AbstractInterval.res_name restricted to an already-split name: the quality
must be an INTERVAL_QUALITIES member (guaranteed by the type here) and the
degree must lie between 1 and 52, else ValueError. -/
def interval_res_name (q : Quality) (deg : Int) : Option IntervalState :=
  if 1 ≤ deg ∧ deg ≤ 52 then some ⟨q, deg⟩ else none

/-- AbstractInterval.invert: flips the quality about perfect and rebuilds an
interval from the degree 9 - singleDegree + octave * 7, going through name
construction (hence through the 1..52 degree check of res_name). -/
def invert (i : IntervalState) : Option IntervalState :=
  interval_res_name (qualityFlip i.quality) (9 - i.singleDegree + i.octave * 7)

/-- The int branch of AbstractInterval.set: accepted only when
0 < interval < 88 (both bounds strict), resolving via the first INTERVALS
entry whose value is interval % 12; the quality is that entry's quality and
the degree is interval // 12 * 7 + that entry's degree digit.  Any other int
falls into the else branch and raises TypeError (none). -/
def interval_set_int (x : Int) : Option IntervalState :=
  if 0 < x ∧ x < 88 then
    match (search_intervals_by_value (x % 12)).head? with
    | some nm => some ⟨nm.1, x.fdiv 12 * 7 + nm.2⟩
    | none => none
  else none

/-- AbstractInterval.eval: the interval between rootPitch and topPitch.
The semitone delta is normalized into 0..11, the letter-degree delta into
1..7; the first INTERVALS entry of that semitone value whose degree digit
equals the normalized letter degree wins, and when none matches the first
entry of that semitone value is taken verbatim (enharmonic fallback). -/
def eval (rootP topP : PitchState) : Option IntervalState :=
  let intervalSize0 := number topP - number rootP
  let degreeSize0 := scaleDegree topP - scaleDegree rootP
  let intervalSize := if 0 ≤ intervalSize0 then intervalSize0 else intervalSize0 + 12
  let degreeSize := if 0 ≤ degreeSize0 then degreeSize0 + 1 else degreeSize0 + 8
  let singleDegreeSize := constrain_by_cycle degreeSize 1 7
  let singleIntervalSize := intervalSize % 12
  let singleIntervalNames := search_intervals_by_value singleIntervalSize
  match singleIntervalNames.find? (fun nm => decide (nm.2 = singleDegreeSize)) with
  | some nm => interval_res_name nm.1 degreeSize
  | none =>
    match singleIntervalNames.head? with
    | some nm => interval_res_name nm.1 nm.2
    | none => none

/-- AbstractInterval.eval_min: compares abs(pitch1.number - pitch2.number)
with abs(pitch2.number - pitch1.number) (the two are always equal, so the
first branch is dead) and delegates to eval. -/
def eval_min (p1 p2 : PitchState) : Option IntervalState :=
  if |number p1 - number p2| < |number p2 - number p1| then eval p1 p2
  else eval p2 p1

/-- GenericPitch.shift: asserts direction ∈ {-1, 1}; computes the target
pitch number with constrain_by_cycle(number + direction * singleSize, 0, 12)
(whose inclusive upper bound can yield 12, which names_by_num then rejects);
computes the target letter code with
constrain_by_cycle(ord(name) + direction * (singleName degree - 1), 65, 8)
(period 8, band 65..73); returns the first enharmonic spelling of the target
number whose letter has that code, else the spelling at index 0 (direction 1)
or 1 (direction -1) of the enharmonic list. -/
def shift (p : PitchState) (i : IntervalState) (dir : Int) : Option PitchState :=
  if dir = -1 ∨ dir = 1 then
    i.singleSize.bind (fun ss =>
      let pitchNumber := constrain_by_cycle (number p + dir * ss) 0 12
      let shiftedOrd := constrain_by_cycle (p.name.ordVal + dir * (i.singleDegreeNum - 1)) 65 8
      (names_by_num pitchNumber).bind (fun pitchNames =>
        match pitchNames.find? (fun nm => decide (nm.1.ordVal = shiftedOrd)) with
        | some nm => some ⟨nm.1, nm.2⟩
        | none => (pitchNames[(if dir = 1 then 0 else 1)]?).map (fun nm => ⟨nm.1, nm.2⟩)))
  else none

/-- GenericPitch.shift with the object store made explicit: the borrowed
pitch is a cell of a store of GenericPitch instances, and the body of shift
(which assigns to no field of self or of the interval and ends in
return GenericPitch(pitchName)) appends the freshly constructed instance and
returns its index together with the untouched store prefix and interval. -/
def shiftHeap (heap : List PitchState) (pIdx : Nat) (i : IntervalState) (dir : Int) :
    Option (List PitchState × Nat × IntervalState) :=
  (heap[pIdx]?).bind (fun p =>
    (shift p i dir).map (fun r => (heap ++ [r], heap.length, i)))

/-- Decidable transcription of claim C10 for one pair of pitch classes:
eval succeeds and returns an interval with degree in 1..7, octave 0, and
size (top.number - root.number) mod 12, a value in 0..11. -/
def c10check (rootP topP : PitchState) : Bool :=
  match eval rootP topP with
  | none => false
  | some i =>
    decide (1 ≤ i.degree ∧ i.degree ≤ 7 ∧ i.octave = 0 ∧
      i.size = some ((number topP - number rootP) % 12) ∧
      0 ≤ (number topP - number rootP) % 12 ∧ (number topP - number rootP) % 12 ≤ 11)

/-! Theorems settling the claims. -/

/-- Claim C1, evidence of the code bug: the claim says shift always returns a
pitch whose number is (p.number + direction * i.size) mod 12, but shifting
F up a perfect fifth raises ValueError: 5 + 7 = 12 is kept unchanged by
constrain_by_cycle (inclusive upper bound) and names_by_num(12) rejects it,
although the claimed target number (5 + 7) mod 12 = 0 exists.  The wrap is
clearly intended (mod-12 arithmetic per the spec, and names_by_num itself
documents pitch numbers 0..11), so the inclusive bound is a slip. -/
theorem c1_shift_fifth_from_F_raises :
    shift ⟨.F, .n⟩ ⟨.P, 5⟩ 1 = none ∧
    IntervalState.size ⟨.P, 5⟩ = some 7 ∧
    (number ⟨.F, .n⟩ + 1 * 7) % 12 = 0 := by decide

/-- Claim C2, counterexample to the claim as stated: for p = D and i = P8,
shift succeeds (returning Cds), but re-measuring gives size 0 while
AbstractInterval("P8").size is 24 (the source gives P8 singleName "P8" of
table value 12 AND octave (8-1)//7 = 1).  eval always returns a
within-octave interval, so no interval of size 12 or more can satisfy the
claim. -/
theorem c2_counterexample :
    shift ⟨.D, .n⟩ ⟨.P, 8⟩ 1 = some ⟨.C, .ds⟩ ∧
    ((shift ⟨.D, .n⟩ ⟨.P, 8⟩ 1).bind (eval ⟨.D, .n⟩)).bind IntervalState.size = some 0 ∧
    IntervalState.size ⟨.P, 8⟩ = some 24 := by decide

/-- Claim C2 as amended: for every pitch class and every within-octave
interval (degree below 8, hence size below 12 when defined), if shift up
succeeds and the returned pitch has the computed target semitone number
(p.number + i.size) mod 12 — which holds for every enharmonic spelling
except the mis-tabulated Bds entry, which PITCHES maps to 9 instead of 1 —
then evaluating from the original pitch to the result recovers i.size. -/
theorem c2_shift_then_eval_size :
    ∀ (L : Letter) (a : Accidental) (q : Quality) (dg : Nat), dg < 8 →
      (IntervalState.size ⟨q, (dg : Int)⟩).getD 12 < 12 →
      (shift ⟨L, a⟩ ⟨q, (dg : Int)⟩ 1).map number
        = (IntervalState.size ⟨q, (dg : Int)⟩).map (fun s => (number ⟨L, a⟩ + s) % 12) →
      ((shift ⟨L, a⟩ ⟨q, (dg : Int)⟩ 1).bind (eval ⟨L, a⟩)).bind IntervalState.size
        = IntervalState.size ⟨q, (dg : Int)⟩ := by decide

/-- Claim C2 witness: the amended theorem applied at p = C, i = M3. -/
theorem c2_shift_then_eval_size_witness :
    ((shift ⟨.C, .n⟩ ⟨.M, ((3 : Nat) : Int)⟩ 1).bind (eval ⟨.C, .n⟩)).bind IntervalState.size
      = IntervalState.size ⟨.M, ((3 : Nat) : Int)⟩ :=
  c2_shift_then_eval_size .C .n .M 3 (by decide) (by decide) (by decide)

/-- Claim C3, evidence of the code bug: eval_min compares
abs(pitch1.number - pitch2.number) with abs(pitch2.number - pitch1.number),
which are always equal, so it unconditionally evaluates eval(pitch2, pitch1).
For pitch1 = C and pitch2 = E this returns m6 of size 8, although the
minimal mod-12 distance is min(8, 4) = 4: the claimed minimality fails.
The concrete instance quoted by the claim, eval_min(F, E) = m2 of size 1,
does hold (there the dead branch is the right one by accident). -/
theorem c3_eval_min_ignores_direction :
    eval_min ⟨.C, .n⟩ ⟨.E, .n⟩ = some ⟨.m, 6⟩ ∧
    IntervalState.size ⟨.m, 6⟩ = some 8 ∧
    eval_min ⟨.F, .n⟩ ⟨.E, .n⟩ = some ⟨.m, 2⟩ ∧
    IntervalState.size ⟨.m, 2⟩ = some 1 := by decide

/-- Claim C4, counterexample to the claim as stated: inverting m2 twice
yields m9 (degree 9, size 13), not m2 (degree 2, size 1).  The first
inversion gives M7; since singleDegree is degree % 7, M7 has singleDegree 0
and inverts to degree 9 - 0 + 0*7 = 9. -/
theorem c4_counterexample :
    (invert ⟨.m, 2⟩).bind invert = some ⟨.m, 9⟩ ∧
    IntervalState.size ⟨.m, 9⟩ = some 13 ∧
    IntervalState.size ⟨.m, 2⟩ = some 1 := by decide

/-- Claim C4 as amended: double inversion is the identity (same quality,
degree, hence size) exactly on those intervals whose degree is congruent to
3, 4, 5 or 6 modulo 7; degrees congruent to 0, 1 or 2 modulo 7 (unison,
seconds, sevenths, octaves and their compounds) are driven out of range by
the degree % 7 in singleDegree.  The bound dg < 52 keeps the intermediate
degree inside the 1..52 window res_name accepts. -/
theorem c4_invert_involution :
    ∀ (q : Quality) (dg : Nat), dg < 52 → 3 ≤ dg % 7 → dg % 7 ≤ 6 →
      (invert ⟨q, (dg : Int)⟩).bind invert = some ⟨q, (dg : Int)⟩ := by decide

/-- Claim C4 witness: the amended theorem applied at A4 (which inverts to d5
and back to A4). -/
theorem c4_invert_involution_witness :
    (invert ⟨Quality.A, ((4 : Nat) : Int)⟩).bind invert
      = some ⟨Quality.A, ((4 : Nat) : Int)⟩ :=
  c4_invert_involution .A 4 (by decide) (by decide) (by decide)

/-- Claim C5, counterexample to the claim as stated: the claim says integer
construction succeeds for every count from 0 up to the ceiling, but the
source guard is 0 < interval < 88 with both bounds strict, so
AbstractInterval(0) raises (TypeError), as does AbstractInterval(88). -/
theorem c5_counterexample :
    interval_set_int 0 = none ∧ interval_set_int 88 = none := by decide

/-- Helper for claim C5: every semitone class 0..11 has at least one entry
in the INTERVALS table, so the first-match lookup never lands on an empty
list. -/
theorem head_some_of_semitone_class : ∀ v : Int, 0 ≤ v → v < 12 →
    ((search_intervals_by_value v).head?).isSome := by
  intro v h1 h2
  interval_cases v <;> decide

/-- Claim C5 as amended: integer construction succeeds exactly for
0 < count < 88; on success the quality is the quality of the first INTERVALS
entry whose value is count mod 12 and the degree is count // 12 * 7 plus
that entry's degree, so AbstractInterval(10) is m7.  Counts of 0 or
negative, and counts of 88 and above, are rejected. -/
theorem c5_int_construction :
    (∀ x : Int, (interval_set_int x).isSome ↔ (0 < x ∧ x < 88)) ∧
    (∀ x : Int, 0 < x → x < 88 →
      ∃ q sd, (search_intervals_by_value (x % 12)).head? = some (q, sd) ∧
        interval_set_int x = some ⟨q, x.fdiv 12 * 7 + sd⟩) ∧
    interval_set_int 10 = some ⟨.m, 7⟩ := by
  refine ⟨?_, ?_, by decide⟩
  · intro x
    constructor
    · intro h
      by_contra hb
      unfold interval_set_int at h
      rw [if_neg hb] at h
      simp at h
    · intro hb
      have h0 : (0:Int) ≤ x % 12 := Int.emod_nonneg x (by norm_num)
      have h1 : x % 12 < 12 := Int.emod_lt_of_pos x (by norm_num)
      obtain ⟨nm, hnm⟩ :=
        Option.isSome_iff_exists.mp (head_some_of_semitone_class (x % 12) h0 h1)
      unfold interval_set_int
      rw [if_pos hb, hnm]
      rfl
  · intro x hx1 hx2
    have h0 : (0:Int) ≤ x % 12 := Int.emod_nonneg x (by norm_num)
    have h1 : x % 12 < 12 := Int.emod_lt_of_pos x (by norm_num)
    obtain ⟨nm, hnm⟩ :=
      Option.isSome_iff_exists.mp (head_some_of_semitone_class (x % 12) h0 h1)
    refine ⟨nm.1, nm.2, ?_, ?_⟩
    · rw [hnm]
    · unfold interval_set_int
      rw [if_pos ⟨hx1, hx2⟩, hnm]

/-- Claim C5 witness: the amended theorem applied at count 14 (a major
ninth). -/
theorem c5_int_construction_witness : (interval_set_int 14).isSome :=
  (c5_int_construction.1 14).mpr (by decide)

/-- Claim C6, evidence of the code bug: the claim (and the comment in the
source, ASCII 65-73 = A-G, which is itself wrong: 73 is I) says the target
letter cycles through the seven letters A..G, but the code wraps with
constrain_by_cycle(.., 65, 8): period 8 and an inclusive band reaching 73.
Shifting A down a major second should give the letter G (and G natural is
an enharmonic spelling of the target number 7, so the claim says shift
returns G), but the code computes character code 64 (at sign), matches no
spelling, and falls back to the extremal candidate Fds. -/
theorem c6_letter_wrap_bug :
    shift ⟨.A, .n⟩ ⟨.M, 2⟩ (-1) = some ⟨.F, .ds⟩ ∧
    (Letter.G, Accidental.n) ∈ search_pitches_by_value 7 := by decide

/-- Claim C7: for every semitone number n in [0,12), constructing a
GenericPitch from the integer n yields number n, and re-constructing from
its canonical string form yields number n again. -/
theorem c7_int_and_name_roundtrip :
    ∀ n : Nat, n < 12 →
      ((pitch_set_int (n : Int)).map number = some (n : Int) ∧
       ((pitch_set_int (n : Int)).bind (fun p => pitch_set_str (strPitch p))).map number
         = some (n : Int)) := by decide

/-- Claim C7 witness: the theorem applied at n = 10 (which constructs Bf). -/
theorem c7_int_and_name_roundtrip_witness :
    (pitch_set_int ((10 : Nat) : Int)).map number = some ((10 : Nat) : Int) :=
  (c7_int_and_name_roundtrip 10 (by decide)).1

/-- Claim C8: shift mutates neither input and allocates a fresh result.  In
the store-passing embedding, whenever shiftHeap succeeds the interval comes
back unchanged, the result index is the fresh cell just past the old store
(in particular distinct from the index of the borrowed pitch), and every
old cell — the borrowed pitch included — still holds its original state
(hence its original letter, accidental and number). -/
theorem c8_shift_frame :
    ∀ (heap : List PitchState) (pIdx : Nat) (i : IntervalState) (dir : Int)
      (heap2 : List PitchState) (rIdx : Nat) (i2 : IntervalState),
      shiftHeap heap pIdx i dir = some (heap2, rIdx, i2) →
      i2 = i ∧ rIdx = heap.length ∧ pIdx < heap.length ∧ rIdx ≠ pIdx ∧
        heap2[pIdx]? = heap[pIdx]? ∧ ∀ j, j < heap.length → heap2[j]? = heap[j]? := by
  intro heap pIdx i dir heap2 rIdx i2 h
  unfold shiftHeap at h
  cases hg : heap[pIdx]? with
  | none => rw [hg] at h; simp at h
  | some p =>
    rw [hg, Option.some_bind] at h
    cases hs : shift p i dir with
    | none => rw [hs] at h; simp at h
    | some r =>
      rw [hs] at h
      simp only [Option.map_some', Option.some.injEq, Prod.mk.injEq] at h
      obtain ⟨h1, h2, h3⟩ := h
      have hlt : pIdx < heap.length := by
        by_contra hc
        push_neg at hc
        rw [List.getElem?_eq_none hc] at hg
        exact Option.noConfusion hg
      refine ⟨h3.symm, h2.symm, hlt, by omega, ?_, ?_⟩
      · rw [← h1, List.getElem?_append_left hlt]
        exact hg
      · intro j hj
        rw [← h1]
        exact List.getElem?_append_left hj

/-- Claim C8 witness: the frame theorem applied to a one-cell store holding
A, shifted up a major third (the store grows to hold Cs at index 1 and cell
0 is untouched). -/
theorem c8_shift_frame_witness :
    ([⟨.A, .n⟩, ⟨.C, .s⟩] : List PitchState)[0]? = ([⟨.A, .n⟩] : List PitchState)[0]? :=
  (c8_shift_frame [⟨.A, .n⟩] 0 ⟨.M, 3⟩ 1 [⟨.A, .n⟩, ⟨.C, .s⟩] 1 ⟨.M, 3⟩
    (by decide)).2.2.2.2.2 0 (by decide)

/-- Claim C9: set_pitch has no branch for an argument that is neither str
nor int, so such an argument raises nothing and leaves the state untouched;
a freshly constructed instance then exposes the class-level defaults:
letter C, natural accidental, number 0. -/
theorem c9_other_arg_defaults :
    genericPitch_init PitchArg.other = some defaultPitch ∧
    defaultPitch.name = Letter.C ∧ defaultPitch.accidental = Accidental.n ∧
    number defaultPitch = 0 ∧
    ∀ (L : Letter) (acc : Accidental), set_pitch ⟨L, acc⟩ PitchArg.other = some ⟨L, acc⟩ := by
  decide

/-- Claim C10: for every pair of pitch classes, eval succeeds and returns a
non-compound interval: degree in 1..7, octave 0, and size exactly
(top.number - root.number) mod 12, a value in 0..11 — in the matching branch
and in the enharmonic-fallback branch alike. -/
theorem c10_eval_within_octave :
    ∀ (L1 : Letter) (a1 : Accidental) (L2 : Letter) (a2 : Accidental),
      c10check ⟨L1, a1⟩ ⟨L2, a2⟩ = true := by decide

end Diatonic
